import Mathlib

/-!
Verification of the single-file stock dashboard (`app1.py`).

The development shallowly embeds the program's pure logic:

* `is_market_open` — the market-hours classifier, as a function of the
  already-converted US/Eastern wall-clock fields (weekday index with
  Monday = 0 as in Python's `datetime.weekday()`, hour, minute).  The
  Python float `hour + minute/60` is modelled as the exact rational,
  which agrees with the float on every integer hour/minute input
  because the interval endpoints 4, 9.5, 16, 20 are exactly
  representable and no reachable value of `hour + minute/60` lies
  within float-rounding distance of an endpoint.
* `get_premarket_price` / `get_market_price` — the two quote fetchers,
  with the external provider (`yfinance`) modelled as an explicit
  outcome datum: either the call raises, or it returns data.
* the `main` loop pieces: the ticker-list builder (Python strings
  modelled as `List Char`), the per-symbol fetch loop, and the
  dataframe cell formatters (Python floats modelled as exact
  rationals; see `pyRound2` for the rounding convention).
-/

namespace StockDashboard

/-! ## MarketClock: `is_market_open` -/

def weekendMsg : String := "Market is closed (Weekend)"

def preMarketMsg : String := "Pre-market hours (4:00 AM - 9:30 AM ET)"

def regularMsg : String := "Regular market hours (9:30 AM - 4:00 PM ET)"

def afterHoursMsg : String := "After-hours (4:00 PM - 8:00 PM ET)"

def closedMsg : String := "Market is closed (Outside trading hours)"

/-- The source's `current_hour + current_minute/60`, as an exact rational. -/
def current_time_float (hour minute : ℕ) : ℚ := hour + minute / 60

/-- Embedding of `is_market_open`, as a function of the US/Eastern local
weekday (Python convention: Monday = 0, ..., Sunday = 6), hour and minute. -/
def is_market_open (weekday hour minute : ℕ) : Bool × String :=
  if weekday ≥ 5 then
    (false, weekendMsg)
  else
    let t := current_time_float hour minute
    if 4 ≤ t ∧ t < 9.5 then (true, preMarketMsg)
    else if 9.5 ≤ t ∧ t < 16 then (true, regularMsg)
    else if 16 ≤ t ∧ t < 20 then (true, afterHoursMsg)
    else (false, closedMsg)

lemma preMarketMsg_ne_weekendMsg : preMarketMsg ≠ weekendMsg := by decide

lemma preMarketMsg_ne_closedMsg : preMarketMsg ≠ closedMsg := by decide

lemma regularMsg_ne_weekendMsg : regularMsg ≠ weekendMsg := by decide

lemma regularMsg_ne_closedMsg : regularMsg ≠ closedMsg := by decide

lemma afterHoursMsg_ne_weekendMsg : afterHoursMsg ≠ weekendMsg := by decide

lemma afterHoursMsg_ne_closedMsg : afterHoursMsg ≠ closedMsg := by decide

lemma weekendMsg_ne_preMarketMsg : weekendMsg ≠ preMarketMsg := by decide

lemma weekendMsg_ne_regularMsg : weekendMsg ≠ regularMsg := by decide

lemma weekendMsg_ne_afterHoursMsg : weekendMsg ≠ afterHoursMsg := by decide

lemma closedMsg_ne_preMarketMsg : closedMsg ≠ preMarketMsg := by decide

lemma closedMsg_ne_regularMsg : closedMsg ≠ regularMsg := by decide

lemma closedMsg_ne_afterHoursMsg : closedMsg ≠ afterHoursMsg := by decide

/-- Claim C4: on a weekday, the classifier maps the boundary instants by
half-open intervals on the fractional hour: 09:29 is open/pre-market,
09:30 and 15:59 are open/regular, 16:00 is open/after-hours, and 20:00
is closed/outside-trading-hours. -/
theorem weekday_boundary_classification (wd : ℕ) (hwd : wd < 5) :
    is_market_open wd 9 29 = (true, preMarketMsg) ∧
    is_market_open wd 9 30 = (true, regularMsg) ∧
    is_market_open wd 15 59 = (true, regularMsg) ∧
    is_market_open wd 16 0 = (true, afterHoursMsg) ∧
    is_market_open wd 20 0 = (false, closedMsg) := by
  have h : ¬ wd ≥ 5 := by omega
  refine ⟨?_, ?_, ?_, ?_, ?_⟩ <;>
    · simp only [is_market_open, current_time_float, if_neg h]
      norm_num

/-- Witness for C4 at the concrete weekday Monday (`wd = 0`). -/
theorem weekday_boundary_classification_witness :
    0 < 5 ∧ is_market_open 0 9 29 = (true, preMarketMsg) :=
  ⟨by decide, (weekday_boundary_classification 0 (by decide)).1⟩

/-- Claim C5: for every instant whose Eastern weekday is Saturday or Sunday
(Python weekday index 5 or 6), the classifier returns closed with the
weekend label, regardless of hour and minute. -/
theorem weekend_always_closed (wd hour minute : ℕ) (hwd : 5 ≤ wd) :
    is_market_open wd hour minute = (false, weekendMsg) := by
  simp only [is_market_open, if_pos (show wd ≥ 5 from hwd)]

/-- Witness for C5 at Saturday 12:34. -/
theorem weekend_always_closed_witness :
    5 ≤ 5 ∧ is_market_open 5 12 34 = (false, weekendMsg) :=
  ⟨by decide, weekend_always_closed 5 12 34 (by decide)⟩

/-- Claim C10: the boolean is consistent with the label: the classifier is
open exactly on weekdays with fractional hour in `[4, 20)`, equivalently
exactly when the label is pre-market, regular or after-hours; it is closed
exactly when the label is the weekend label or the outside-hours label. -/
theorem open_flag_iff_label (wd hour minute : ℕ) :
    ((is_market_open wd hour minute).1 = true ↔
      wd < 5 ∧ 4 ≤ current_time_float hour minute ∧
        current_time_float hour minute < 20) ∧
    ((is_market_open wd hour minute).1 = true ↔
      (is_market_open wd hour minute).2 = preMarketMsg ∨
      (is_market_open wd hour minute).2 = regularMsg ∨
      (is_market_open wd hour minute).2 = afterHoursMsg) ∧
    ((is_market_open wd hour minute).1 = false ↔
      (is_market_open wd hour minute).2 = weekendMsg ∨
      (is_market_open wd hour minute).2 = closedMsg) := by
  simp only [is_market_open]
  split_ifs with h1 h2 h3 h4
  · exact ⟨iff_of_false (by simp) (fun hc => absurd h1 (by omega)),
      iff_of_false (by simp)
        (by simp [weekendMsg_ne_preMarketMsg, weekendMsg_ne_regularMsg,
          weekendMsg_ne_afterHoursMsg]),
      iff_of_true rfl (Or.inl rfl)⟩
  · exact ⟨iff_of_true rfl ⟨by omega, h2.1, by linarith [h2.2]⟩,
      iff_of_true rfl (Or.inl rfl),
      iff_of_false (by simp)
        (by simp [preMarketMsg_ne_weekendMsg, preMarketMsg_ne_closedMsg])⟩
  · exact ⟨iff_of_true rfl ⟨by omega, by linarith [h3.1], by linarith [h3.2]⟩,
      iff_of_true rfl (Or.inr (Or.inl rfl)),
      iff_of_false (by simp)
        (by simp [regularMsg_ne_weekendMsg, regularMsg_ne_closedMsg])⟩
  · exact ⟨iff_of_true rfl ⟨by omega, by linarith [h4.1], h4.2⟩,
      iff_of_true rfl (Or.inr (Or.inr rfl)),
      iff_of_false (by simp)
        (by simp [afterHoursMsg_ne_weekendMsg, afterHoursMsg_ne_closedMsg])⟩
  · refine ⟨iff_of_false (by simp) ?_,
      iff_of_false (by simp)
        (by simp [closedMsg_ne_preMarketMsg, closedMsg_ne_regularMsg,
          closedMsg_ne_afterHoursMsg]),
      iff_of_true rfl (Or.inr rfl)⟩
    intro ⟨_, hlo, hhi⟩
    rcases lt_or_le (current_time_float hour minute) 9.5 with hc | hc
    · exact h2 ⟨hlo, hc⟩
    · rcases lt_or_le (current_time_float hour minute) 16 with hc2 | hc2
      · exact h3 ⟨hc, hc2⟩
      · exact h4 ⟨hc2, hhi⟩

/-! ## QuoteFetcher: `get_premarket_price` and `get_market_price`

The external provider (`yf.Ticker(...)`) is modelled by an explicit
outcome datum per call: the call either raises an exception or returns
its data.  Prices are exact rationals. -/

/-- One daily bar of `stock.history(period='2d')`: close price and volume. -/
structure Bar where
  close : ℚ
  volume : ℤ
deriving DecidableEq

/-- Outcome of `stock.history(period='2d')` inside the `try` block:
either some statement raises, or a (possibly empty) list of daily bars
comes back, oldest first (so `iloc[-1]` is the last element). -/
inductive HistOutcome where
  | raises
  | bars (hist : List Bar)
deriving DecidableEq

/-- The fields of `ticker.info` that `get_premarket_price` reads; each is
`none` when the key is absent from the provider's snapshot. -/
structure MarketInfo where
  preMarketPrice : Option ℚ
  regularMarketPrice : Option ℚ
  previousClose : Option ℚ
deriving DecidableEq

/-- Outcome of `yf.Ticker(...).info` inside the `try` block. -/
inductive InfoOutcome where
  | raises
  | snapshot (md : MarketInfo)
deriving DecidableEq

/-- The dict built by `get_premarket_price`. -/
structure PremarketRecord where
  ticker : String
  price : Option ℚ
  regularMarketPrice : Option ℚ
  previousClose : Option ℚ
  change : Option ℚ
  changePct : Option ℚ
deriving DecidableEq

/-- A value of pandas/numpy float64 arithmetic: a finite number, NaN, or
a signed infinity.  `hist['Close'].iloc[...]` values are numpy scalars,
so dividing by a zero previous close does not raise — `0.0/0.0` is NaN
and `x/0.0` is `±inf`. -/
inductive PyFloat where
  | num (q : ℚ)
  | nan
  | inf
  | ninf
deriving DecidableEq

/-- Division of finite numpy float64 values: NaN for `0/0`, signed
infinities for `x/0` with `x ≠ 0`, the exact quotient otherwise. -/
def pyDiv (a b : ℚ) : PyFloat :=
  if b = 0 then
    if a = 0 then .nan else if 0 < a then .inf else .ninf
  else .num (a / b)

/-- Multiplication of a numpy float64 value by the positive constant
`100`: NaN and the infinities are preserved. -/
def pyMul100 : PyFloat → PyFloat
  | .num q => .num (q * 100)
  | v => v

/-- The dict built by `get_market_price` (when it returns one).  The
`Change%` entry is a numpy float64 and can be NaN or infinite when the
previous close is zero. -/
structure MarketRecord where
  ticker : String
  price : Option ℚ
  change : Option ℚ
  changePct : Option PyFloat
  volume : Option ℤ
deriving DecidableEq

/-- Python truthiness of an optional number, as used by
`if result['Price'] and result['Previous Close']:` — `None`, `0` and
`0.0` are all falsy. -/
def pyTruthy (v : Option ℚ) : Bool :=
  match v with
  | none => false
  | some x => decide (x ≠ 0)

/-- Embedding of `get_premarket_price`.  The `try` body only reads
`ticker.info` and dictionary fields, so the only failure point is the
provider call itself, summarized by the `InfoOutcome`. -/
def get_premarket_price (ticker_symbol : String) (o : InfoOutcome) :
    PremarketRecord :=
  match o with
  | .raises =>
      { ticker := ticker_symbol, price := none, regularMarketPrice := none,
        previousClose := none, change := none, changePct := none }
  | .snapshot md =>
      let price := md.preMarketPrice
      let prev := md.previousClose
      if pyTruthy price && pyTruthy prev then
        let p := price.getD 0
        let q := prev.getD 0
        { ticker := ticker_symbol, price := price,
          regularMarketPrice := md.regularMarketPrice, previousClose := prev,
          change := some (p - q), changePct := some ((p - q) / q * 100) }
      else
        { ticker := ticker_symbol, price := price,
          regularMarketPrice := md.regularMarketPrice, previousClose := prev,
          change := none, changePct := none }

/-- Embedding of `get_market_price`.  Note the faithful translation of the
control flow: when the provider call succeeds but the history is empty,
`if not hist.empty:` is skipped, no `return` statement runs, and the
Python function returns `None` — modelled as `none` here.  The `except`
branch and the non-empty branch both return a record (`some`).  The
change-percent division is numpy float64 division (`pyDiv`), which
yields NaN or `±inf` instead of raising when the previous close is
zero. -/
def get_market_price (ticker_symbol : String) (o : HistOutcome) :
    Option MarketRecord :=
  match o with
  | .raises =>
      some { ticker := ticker_symbol, price := none, change := none,
             changePct := none, volume := none }
  | .bars hist =>
      match hist.getLast? with
      | none => none
      | some lastBar =>
          let current := lastBar.close
          let prev :=
            if hist.length > 1 then
              ((hist.get? (hist.length - 2)).getD lastBar).close
            else current
          let change := current - prev
          let change_percent := pyMul100 (pyDiv change prev)
          some { ticker := ticker_symbol, price := some current,
                 change := some change, changePct := some change_percent,
                 volume := some lastBar.volume }

/-- Claim C1 (failing input): in regular-market mode, when the provider
call succeeds but returns an empty history, `get_market_price` returns no
record at all (Python `None`) instead of the promised null-filled record
with the symbol populated. -/
theorem market_price_empty_hist_returns_none :
    get_market_price "XYZ" (HistOutcome.bars []) = none := rfl

/-- Claim C3 (counterexample): a snapshot where the pre-market price is
present but equal to `0` and the previous close is present (`100`).  Both
fields are present, so the claim demands `Change = 0 - 100`; the code's
truthiness test treats the `0` as missing and leaves `Change` null. -/
theorem premarket_change_zero_price_counterexample :
    (get_premarket_price "X"
        (InfoOutcome.snapshot
          { preMarketPrice := some 0, regularMarketPrice := none,
            previousClose := some 100 })).change ≠ some ((0 : ℚ) - 100) := by
  simp [get_premarket_price, pyTruthy]

/-- Claim C3 (amended): in pre-market mode, `Change`/`Change%` are computed
exactly when the pre-market price and the previous close are both present
*and non-zero* (Python truthiness); when either is absent **or zero**,
both are null.  On a present pair `p`, `q` with `p ≠ 0`, `q ≠ 0`,
`Change = p - q` and `Change% = (p - q) / q * 100`. -/
theorem premarket_change_fields (s : String) (md : MarketInfo) :
    (∀ p q : ℚ, md.preMarketPrice = some p → md.previousClose = some q →
      p ≠ 0 → q ≠ 0 →
      (get_premarket_price s (InfoOutcome.snapshot md)).change = some (p - q) ∧
      (get_premarket_price s (InfoOutcome.snapshot md)).changePct =
        some ((p - q) / q * 100)) ∧
    ((md.preMarketPrice = none ∨ md.preMarketPrice = some 0 ∨
      md.previousClose = none ∨ md.previousClose = some 0) →
      (get_premarket_price s (InfoOutcome.snapshot md)).change = none ∧
      (get_premarket_price s (InfoOutcome.snapshot md)).changePct = none) := by
  constructor
  · intro p q hp hq hp0 hq0
    simp [get_premarket_price, pyTruthy, hp, hq, hp0, hq0]
  · intro h
    rcases h with h | h | h | h <;>
      simp [get_premarket_price, pyTruthy, h, Bool.and_comm]

/-- Witness for C3 (amended) at the concrete snapshot
`preMarketPrice = 5`, `previousClose = 4`. -/
theorem premarket_change_fields_witness :
    (get_premarket_price "T"
        (InfoOutcome.snapshot
          { preMarketPrice := some 5, regularMarketPrice := none,
            previousClose := some 4 })).change = some ((5 : ℚ) - 4) :=
  ((premarket_change_fields "T"
      { preMarketPrice := some 5, regularMarketPrice := none,
        previousClose := some 4 }).1 5 4 rfl rfl (by decide) (by decide)).1

/-- Claim C7 (counterexample): a single bar whose close is `0`.  The
claim demands `Change% = 0.0`, but the code computes `(0.0/0.0) * 100`,
which is numpy NaN, not `0.0`. -/
theorem single_bar_zero_close_counterexample :
    Option.map MarketRecord.changePct
        (get_market_price "X" (HistOutcome.bars [{ close := 0, volume := 5 }]))
      ≠ some (some (PyFloat.num 0)) := by
  simp [get_market_price, pyDiv, pyMul100]

/-- Claim C7 (amended): in regular-market mode, on exactly one historical
bar the previous close is that bar's close and `Change = 0`; when the
bar's close is non-zero, `Change% = 0.0`, and when the bar's close is
zero, `Change%` is NaN (`0.0/0.0` in numpy float64 arithmetic). -/
theorem market_price_single_bar (s : String) (b : Bar) :
    (b.close ≠ 0 →
      get_market_price s (HistOutcome.bars [b]) =
        some { ticker := s, price := some b.close, change := some 0,
               changePct := some (PyFloat.num 0), volume := some b.volume }) ∧
    (b.close = 0 →
      get_market_price s (HistOutcome.bars [b]) =
        some { ticker := s, price := some b.close, change := some 0,
               changePct := some PyFloat.nan, volume := some b.volume }) := by
  constructor
  · intro h
    simp [get_market_price, pyDiv, pyMul100, h]
  · intro h
    simp [get_market_price, pyDiv, pyMul100, h]

/-- Witness for C7 (amended) at the concrete bar with close `10`,
volume `3`. -/
theorem market_price_single_bar_witness :
    get_market_price "T" (HistOutcome.bars [{ close := 10, volume := 3 }]) =
      some { ticker := "T", price := some 10, change := some 0,
             changePct := some (PyFloat.num 0), volume := some 3 } :=
  (market_price_single_bar "T" { close := 10, volume := 3 }).1 (by decide)

/-! ## The per-symbol fetch loop in `main`

`main` iterates over `all_tickers`, calls one of the two fetchers
according to the selected market type, and appends each result to
`results`.  The provider's behaviour is an environment mapping each
symbol to the outcome of each kind of call. -/

/-- The two values of the `st.radio` market-type selector. -/
inductive MarketType where
  | market
  | pre_market
deriving DecidableEq

/-- Provider behaviour during one refresh: what each call would return
for each symbol. -/
structure ProviderEnv where
  hist : String → HistOutcome
  info : String → InfoOutcome

/-- One element of the `results` list: either a pre-market dict, or
whatever `get_market_price` returned (possibly Python `None`). -/
inductive FetchResult where
  | pre (r : PremarketRecord)
  | mkt (r : Option MarketRecord)
deriving DecidableEq

/-- The body of the loop: `if market_type == 'pre_market': ... else: ...`. -/
def fetch_for (mt : MarketType) (env : ProviderEnv) (ticker : String) :
    FetchResult :=
  match mt with
  | .pre_market => .pre (get_premarket_price ticker (env.info ticker))
  | .market => .mkt (get_market_price ticker (env.hist ticker))

/-- The loop itself: `results = []; for ticker in all_tickers:
results.append(data)`. -/
def run_batch_aux (mt : MarketType) (env : ProviderEnv) :
    List String → List FetchResult → List FetchResult
  | [], results => results
  | ticker :: rest, results =>
      run_batch_aux mt env rest (results ++ [fetch_for mt env ticker])

def run_batch (mt : MarketType) (env : ProviderEnv)
    (all_tickers : List String) : List FetchResult :=
  run_batch_aux mt env all_tickers []

lemma run_batch_aux_eq (mt : MarketType) (env : ProviderEnv) :
    ∀ (ts : List String) (acc : List FetchResult),
      run_batch_aux mt env ts acc = acc ++ ts.map (fetch_for mt env) := by
  intro ts
  induction ts with
  | nil => intro acc; simp [run_batch_aux]
  | cons t rest ih =>
      intro acc
      simp [run_batch_aux, ih]

lemma run_batch_eq_map (mt : MarketType) (env : ProviderEnv)
    (ts : List String) : run_batch mt env ts = ts.map (fetch_for mt env) := by
  simp [run_batch, run_batch_aux_eq]

/-- Claim C8: the batch loop yields exactly one result per requested
symbol, in input order (`i`-th result = fetch of `i`-th ticker), and the
result at a position depends only on the provider's behaviour at that
position's symbol — so one symbol's failure never aborts or alters the
processing of the others. -/
theorem batch_order_and_isolation (mt : MarketType) (env env2 : ProviderEnv)
    (ts : List String) (i : ℕ) :
    (run_batch mt env ts).length = ts.length ∧
    (run_batch mt env ts)[i]? = (ts[i]?).map (fetch_for mt env) ∧
    (∀ s : String, ts[i]? = some s → env.hist s = env2.hist s →
      env.info s = env2.info s →
      (run_batch mt env ts)[i]? = (run_batch mt env2 ts)[i]?) := by
  refine ⟨by simp [run_batch_eq_map], by simp [run_batch_eq_map], ?_⟩
  intro s hs hhist hinfo
  have hfetch : fetch_for mt env s = fetch_for mt env2 s := by
    cases mt <;> simp [fetch_for, hhist, hinfo]
  simp [run_batch_eq_map, hs, hfetch]

/-- Witness for C8: two symbols, a provider that raises on both versus a
provider that instead returns data for the second symbol; the first
symbol's result is unchanged. -/
theorem batch_order_and_isolation_witness :
    (run_batch MarketType.market ⟨fun _ => HistOutcome.raises,
        fun _ => InfoOutcome.raises⟩ ["A", "B"])[0]? =
      (run_batch MarketType.market
        ⟨fun s => if s = "B" then HistOutcome.bars [⟨10, 3⟩]
          else HistOutcome.raises,
         fun _ => InfoOutcome.raises⟩ ["A", "B"])[0]? :=
  (batch_order_and_isolation MarketType.market
      ⟨fun _ => HistOutcome.raises, fun _ => InfoOutcome.raises⟩
      ⟨fun s => if s = "B" then HistOutcome.bars [⟨10, 3⟩]
        else HistOutcome.raises,
       fun _ => InfoOutcome.raises⟩
      ["A", "B"] 0).2.2 "A" rfl (by decide) rfl

/-! ## ReportFormatter: the dataframe cell lambdas in `main`

Python formats IEEE-754 doubles; the embedding stores exact rationals.
`'{:.2f}'`-style formatting is modelled as rounding the rational to two
decimals, half away from zero.  CPython rounds the double's exact
decimal expansion with ties to even, so the model diverges from CPython
precisely at rationals that are exactly representable doubles ending in
a decimal tie — CPython prints `0.125` as `0.12`, this model rounds it
to `0.13`.  No value appearing in a theorem below is such a tie: for
the spec's literals the nearest double lies strictly off the tie and
CPython agrees with the model (the double written `2.345` lies above
the tie and CPython prints `2.35`).  All arithmetic below is on
`Int`/`Nat` so that concrete cells evaluate by `decide`.

The lambdas do not see the fetchers' `None` values directly:
`pd.DataFrame` builds each column first, and a column that contains at
least one number is a float64 column in which every `None` has been
coerced to float NaN — and NaN passes `isinstance(x, (int, float))`.
Only an all-`None` column keeps its `None`s (object dtype).
`coerceColumn` models this, and the cell domain `PyCell` distinguishes
a finite number, a NaN, and a surviving `None`. -/

/-- What a dataframe cell holds when a column lambda runs: a finite
number, a float NaN (a coerced missing value in a column that also has
numbers), or a surviving Python `None` (all-missing column). -/
inductive PyCell (α : Type) where
  | num (x : α)
  | nan
  | pyNone
deriving DecidableEq

/-- Modelled `pd.DataFrame` column construction: with at least one
number present the column is float64 and each `None` becomes NaN;
an all-`None` column keeps its `None`s. -/
def coerceColumn {α : Type} (col : List (Option α)) : List (PyCell α) :=
  if col.any (fun v => v.isSome) then
    col.map (fun v =>
      match v with
      | some x => PyCell.num x
      | none => PyCell.nan)
  else
    col.map (fun _ => PyCell.pyNone)

/-- The decimal digit character for `n % 10`. -/
def digitChar (n : ℕ) : Char := Char.ofNat (48 + n % 10)

/-- Decimal digits of a natural number, most significant first
(fuel-structured so the kernel evaluates it). -/
def natDigitsAux : ℕ → ℕ → List Char
  | 0, _ => []
  | fuel + 1, n =>
      if n < 10 then [digitChar n]
      else natDigitsAux fuel (n / 10) ++ [digitChar (n % 10)]

def natToChars (n : ℕ) : List Char := natDigitsAux (n + 1) n

def natToString (n : ℕ) : String := String.mk (natToChars n)

/-- Rounding `100 x` to an integer with halves away from zero, computed on the
numerator/denominator representation (`x.den > 0` always holds). -/
def pyRound2 (x : ℚ) : ℤ :=
  let p := x.num * 100
  let q : ℤ := x.den
  if 0 ≤ p then (2 * p + q).fdiv (2 * q) else -((q - 2 * p).fdiv (2 * q))

/-- Fixed-point rendering `'{:.2f}'` / `'{:+.2f}'`: sign (forced when `forceSign`), integer
part, dot, two fractional digits.  The sign is that of the value itself,
matching CPython, which keeps a `-` even when the digits round to zero. -/
def pyFixed2 (x : ℚ) (forceSign : Bool) : String :=
  let scaled := pyRound2 x
  let sign := if x.num < 0 then "-" else if forceSign then "+" else ""
  let a := scaled.natAbs
  sign ++ natToString (a / 100) ++ "." ++
    (if a % 100 < 10 then "0" else "") ++ natToString (a % 100)

/-- Splits a reversed digit list into groups of three (least significant
group first).  Used for the thousands separators of `'{:,.0f}'`. -/
def groupThrees : ℕ → List Char → List (List Char)
  | 0, _ => []
  | _ + 1, [] => []
  | fuel + 1, c :: cs =>
      (c :: cs).take 3 :: groupThrees fuel ((c :: cs).drop 3)

def withCommas (ds : List Char) : List Char :=
  let gs := groupThrees (ds.length + 1) ds.reverse
  List.intercalate [','] (gs.map List.reverse).reverse

/-- Thousands-separated rendering `'{:,.0f}'` of an integer volume. -/
def pyCommaInt (x : ℤ) : String :=
  (if x < 0 then "-" else "") ++ String.mk (withCommas (natToChars x.natAbs))

/-- The lambda applied to each of the `Price`, `Regular Market Price`
and `Previous Close` columns: `f'${x:.2f}'` when
`isinstance(x, (int, float))`, else `'N/A'`.  A NaN cell is a float, so
it takes the numeric branch and CPython prints it as `nan`, giving
`"$nan"`; only a surviving `None` fails the test and yields `"N/A"`. -/
def fmtPriceCell (v : PyCell ℚ) : String :=
  match v with
  | .num x => "$" ++ pyFixed2 x false
  | .nan => "$" ++ "nan"
  | .pyNone => "N/A"

/-- The lambda applied to the `Change` column: `f'${x:+.2f}'` on the
numeric branch (note the `$` first, then the forced sign — CPython
prints NaN under `'+.2f'` as `+nan`), `'N/A'` on a surviving `None`. -/
def fmtChangeCell (v : PyCell ℚ) : String :=
  match v with
  | .num x => "$" ++ pyFixed2 x true
  | .nan => "$" ++ "+nan"
  | .pyNone => "N/A"

/-- The lambda applied to the `Change%` column: `f'{x:+.2f}%'` on the
numeric branch (NaN prints `+nan%`), `'N/A'` on a surviving `None`. -/
def fmtChangePctCell (v : PyCell ℚ) : String :=
  match v with
  | .num x => pyFixed2 x true ++ "%"
  | .nan => "+nan" ++ "%"
  | .pyNone => "N/A"

/-- The lambda applied to the `Volume` column: `f'{x:,.0f}'` on the
numeric branch (NaN prints `nan`), `'N/A'` on a surviving `None`. -/
def fmtVolumeCell (v : PyCell ℤ) : String :=
  match v with
  | .num x => pyCommaInt x
  | .nan => "nan"
  | .pyNone => "N/A"

/-- One formatted column of the dataframe: `pd.DataFrame` coercion of
the records' field values, then the column's lambda via `.apply`. -/
def fmtPriceColumn (col : List (Option ℚ)) : List String :=
  (coerceColumn col).map fmtPriceCell

def fmtChangeColumn (col : List (Option ℚ)) : List String :=
  (coerceColumn col).map fmtChangeCell

def fmtChangePctColumn (col : List (Option ℚ)) : List String :=
  (coerceColumn col).map fmtChangePctCell

def fmtVolumeColumn (col : List (Option ℤ)) : List String :=
  (coerceColumn col).map fmtVolumeCell

/-- Claim C2 (counterexample): `Change = -1.5` (written `mkRat (-3) 2`)
does not render as `"-$1.50"`; the code produces `"$-1.50"`, with the
sign after the dollar sign. -/
theorem change_sign_position_counterexample :
    fmtChangeCell (PyCell.num (mkRat (-3) 2)) ≠ "-$1.50" := by decide

/-- Claim C2 (amended): every numeric `Change` value renders as a dollar
sign followed by the signed two-decimal amount — the sign sits between
the `$` and the digits: `1.23` renders `"$+1.23"`, `-0.45` renders
`"$-0.45"`, and `-1.5` renders `"$-1.50"`. -/
theorem change_rendered_dollar_then_sign :
    (∀ x : ℚ, fmtChangeCell (PyCell.num x) = "$" ++ pyFixed2 x true) ∧
    fmtChangeCell (PyCell.num (mkRat 123 100)) = "$+1.23" ∧
    fmtChangeCell (PyCell.num (mkRat (-45) 100)) = "$-0.45" ∧
    fmtChangeCell (PyCell.num (mkRat (-3) 2)) = "$-1.50" :=
  ⟨fun _ => rfl, by decide, by decide, by decide⟩

/-- Claim C9 (failing input): numeric cells render as the claim says
(`123.4` as `"$123.40"`; `2.345` as `"+2.35%"`, as CPython prints it,
since its double lies above the decimal tie; `1234567` as
`"1,234,567"`), but a missing value renders `"N/A"` only in an
all-missing column.  In a column that also contains a number — the
spec's own mixed end-to-end scenario, one symbol succeeding and one
failing — the dataframe coerces the `None` to float NaN, which passes
the `isinstance` test and renders `"$nan"` / `"$+nan"` / `"+nan%"` /
`"nan"` instead of the claimed `"N/A"`. -/
theorem formatter_mixed_column_renders_nan :
    fmtPriceColumn [some (mkRat 150 1), none] = ["$150.00", "$nan"] ∧
    fmtChangeColumn [some (mkRat 2 1), none] = ["$+2.00", "$+nan"] ∧
    fmtChangePctColumn [some (mkRat 2345 1000), none] = ["+2.35%", "+nan%"] ∧
    fmtVolumeColumn [some 1234567, none] = ["1,234,567", "nan"] ∧
    fmtPriceColumn [none, none] = ["N/A", "N/A"] ∧
    fmtChangeColumn [none] = ["N/A"] ∧
    fmtChangePctColumn [none] = ["N/A"] ∧
    fmtVolumeColumn [none] = ["N/A"] ∧
    fmtPriceCell (PyCell.num (mkRat 617 5)) = "$123.40" :=
  ⟨by decide, by decide, by decide, by decide, by decide, by decide,
    by decide, by decide, by decide⟩

/-! ## TickerListBuilder: the ticker-list code in `main`

Python strings are modelled as `List Char`.  The source upper-cases the
whole raw input first (`st.text_input(...).upper()`), then splits on
commas and strips each piece; the spec describes the tokens as
comma-split, trimmed, upper-cased.  The refinement theorem shows the two
agree for every input. -/

/-- Python's `str.upper()` on one ASCII character (Python upper-cases `a`–`z`;
ticker input is ASCII). -/
def upChar (c : Char) : Char :=
  if 97 ≤ c.toNat ∧ c.toNat ≤ 122 then Char.ofNat (c.toNat - 32) else c

/-- Python's `str.upper()` on a whole string. -/
def pyUpper (s : List Char) : List Char := s.map upChar

/-- The ASCII whitespace stripped by Python's `str.strip()`. -/
def pyIsSpace (c : Char) : Bool :=
  decide (c.toNat ∈ ([32, 9, 10, 13, 11, 12] : List ℕ))

/-- Python's `str.strip()`: drop whitespace from both ends. -/
def pyStrip (s : List Char) : List Char :=
  ((s.dropWhile pyIsSpace).reverse.dropWhile pyIsSpace).reverse

/-- Python's `str.split(',')`: the empty string yields one empty piece, and consecutive
commas yield empty pieces. -/
def splitOnComma : List Char → List (List Char)
  | [] => [[]]
  | c :: rest =>
      match splitOnComma rest with
      | [] => [[c]]
      | t :: ts => if c = ',' then [] :: t :: ts else (c :: t) :: ts

/-- Python's `list(dict.fromkeys(...))`: deduplicate keeping the first occurrence,
preserving order. -/
def dedupFirstAux : List (List Char) → List (List Char) → List (List Char)
  | [], acc => acc
  | x :: rest, acc =>
      if x ∈ acc then dedupFirstAux rest acc
      else dedupFirstAux rest (acc ++ [x])

def dedupFirst (l : List (List Char)) : List (List Char) := dedupFirstAux l []

/-- The ticker-list code of `main`: copy the defaults, extend with the
stripped pieces of the upper-cased input when it is non-empty, then
deduplicate preserving order. -/
def build_tickers (default_tickers : List (List Char)) (raw : List Char) :
    List (List Char) :=
  let new_tickers := pyUpper raw
  let all_tickers :=
    if new_tickers ≠ [] then
      default_tickers ++ (splitOnComma new_tickers).map pyStrip
    else default_tickers
  dedupFirst all_tickers

/-- The same builder as the spec words it: split the raw input on commas,
trim each piece, upper-case each piece, append when the raw input is
non-empty, then deduplicate keeping first occurrences. -/
def build_tickers_spec (default_tickers : List (List Char))
    (raw : List Char) : List (List Char) :=
  let tokens := (splitOnComma raw).map (fun t => pyUpper (pyStrip t))
  dedupFirst
    (if raw ≠ [] then default_tickers ++ tokens else default_tickers)

lemma ofNat_upper_ne_comma (m : ℕ) (h1 : 65 ≤ m) (h2 : m ≤ 90) :
    Char.ofNat m ≠ ',' := by
  interval_cases m <;> decide

lemma ofNat_upper_not_space (m : ℕ) (h1 : 65 ≤ m) (h2 : m ≤ 90) :
    pyIsSpace (Char.ofNat m) = false := by
  interval_cases m <;> decide

lemma upChar_eq_comma_iff (c : Char) : upChar c = ',' ↔ c = ',' := by
  unfold upChar
  split_ifs with h
  · constructor
    · intro hc
      exact absurd hc (ofNat_upper_ne_comma _ (by omega) (by omega))
    · intro hc
      subst hc
      exact absurd h (by decide)
  · exact Iff.rfl

lemma pyIsSpace_upChar (c : Char) : pyIsSpace (upChar c) = pyIsSpace c := by
  unfold upChar
  split_ifs with h
  · have hc : pyIsSpace c = false := by
      simp only [pyIsSpace, decide_eq_false_iff_not, List.mem_cons,
        List.not_mem_nil, or_false]
      omega
    rw [hc, ofNat_upper_not_space _ (by omega) (by omega)]
  · rfl

lemma splitOnComma_ne_nil (l : List Char) : splitOnComma l ≠ [] := by
  cases l with
  | nil => simp [splitOnComma]
  | cons c rest =>
      simp only [splitOnComma]
      split
      · simp
      · split_ifs <;> simp

lemma splitOnComma_map_upChar (l : List Char) :
    splitOnComma (l.map upChar) = (splitOnComma l).map (List.map upChar) := by
  induction l with
  | nil => rfl
  | cons c rest ih =>
      rcases hr : splitOnComma rest with _ | ⟨t, ts⟩
      · exact absurd hr (splitOnComma_ne_nil rest)
      · simp only [List.map_cons, splitOnComma, ih, hr]
        by_cases hc : c = ','
        · simp [if_pos hc, if_pos ((upChar_eq_comma_iff c).mpr hc)]
        · simp [if_neg hc, if_neg (fun h => hc ((upChar_eq_comma_iff c).mp h))]

lemma dropWhile_map_upChar (l : List Char) :
    (l.map upChar).dropWhile pyIsSpace =
      (l.dropWhile pyIsSpace).map upChar := by
  induction l with
  | nil => rfl
  | cons c rest ih =>
      by_cases h : pyIsSpace c
      · simp [List.dropWhile_cons, pyIsSpace_upChar c, h, ih]
      · simp [List.dropWhile_cons, pyIsSpace_upChar c, h]

lemma pyStrip_map_upChar (l : List Char) :
    pyStrip (l.map upChar) = (pyStrip l).map upChar := by
  unfold pyStrip
  rw [dropWhile_map_upChar, ← List.map_reverse, dropWhile_map_upChar,
    ← List.map_reverse]

/-- Claim C6: the ticker-list builder returns the defaults followed by
the comma-split, trimmed, upper-cased user tokens in order (appended only
when the raw input is non-empty, empty tokens kept), deduplicated keeping
first occurrences; `build([A, B], "B, c ,A") = [A, B, C]` and
`build([A, B], "A,,B")` keeps the empty token. -/
theorem build_tickers_matches_spec :
    (∀ (default_tickers : List (List Char)) (raw : List Char),
        build_tickers default_tickers raw =
          build_tickers_spec default_tickers raw) ∧
    build_tickers [("A").toList, ("B").toList] (("B, c ,A").toList) =
      [("A").toList, ("B").toList, ("C").toList] ∧
    build_tickers [("A").toList, ("B").toList] (("A,,B").toList) =
      [("A").toList, ("B").toList, ([] : List Char)] := by
  refine ⟨?_, by decide, by decide⟩
  intro default_tickers raw
  have hbody : build_tickers default_tickers raw =
      dedupFirst (if pyUpper raw ≠ [] then
        default_tickers ++ (splitOnComma (pyUpper raw)).map pyStrip
      else default_tickers) := rfl
  have hspec : build_tickers_spec default_tickers raw =
      dedupFirst (if raw ≠ [] then
        default_tickers ++
          (splitOnComma raw).map (fun t => pyUpper (pyStrip t))
      else default_tickers) := rfl
  rw [hbody, hspec]
  by_cases hraw : raw = []
  · subst hraw
    rfl
  · have hmap : pyUpper raw ≠ [] := by simp [pyUpper, hraw]
    rw [if_pos hmap, if_pos hraw]
    have htok : ∀ t : List Char, pyStrip (t.map upChar) =
        (pyStrip t).map upChar := fun t => pyStrip_map_upChar t
    simp [pyUpper, splitOnComma_map_upChar, List.map_map, Function.comp_def,
      htok]

end StockDashboard
